import Mathlib

/-!
Verification of the BillScan billing pipeline server (the Express app in
the server directory).  The definitions below are a shallow embedding of
the server code: the field extractor with its four regular expressions,
the record store and its mutation paths (upload creation, background
pipeline success and failure, the merge based PUT update), the pipeline
run including intermediate file handling, and the Excel export generator.
External effects (clock, OCR engine, image library, file system) appear
as explicit parameters and state.
-/

namespace BillScan

/-! ## Character and string helpers (JS semantics on ASCII input) -/

/-- Case insensitive comparison of a lowercase pattern letter with a text
character, as done by the i flag of a JS regex on ASCII letters. -/
def ciEq (l c : Char) : Bool := c = l || c.toNat + 32 = l.toNat

/-- Strip a case insensitive literal label from the front of the text,
returning the rest on success. -/
def stripCI : List Char → List Char → Option (List Char)
  | [], s => some s
  | _ :: _, [] => none
  | l :: ls, c :: cs => if ciEq l c then stripCI ls cs else none

/-- Numeric value of a digit string, as the integer part of parseFloat. -/
def natOfDigits (l : List Char) : Nat :=
  l.foldl (fun n c => 10 * n + (c.toNat - 48)) 0

/-- parseFloat on a string matching the shape digits, optional dot,
optional digits, read as an exact rational. -/
def parseDecimal (l : List Char) : ℚ :=
  let intPart := l.takeWhile Char.isDigit
  let rest := l.drop intPart.length
  match rest with
  | '.' :: frac0 =>
      let frac := frac0.takeWhile Char.isDigit
      mkRat (natOfDigits intPart * 10 ^ frac.length + natOfDigits frac)
        (10 ^ frac.length)
  | _ => (natOfDigits intPart : ℚ)

/-- JS String.prototype.split on a newline. -/
def splitNl : List Char → List (List Char)
  | [] => [[]]
  | c :: cs =>
    if c = '\n' then [] :: splitNl cs
    else
      match splitNl cs with
      | [] => [[c]]
      | l :: ls => (c :: l) :: ls

/-- JS String.prototype.trim restricted to ASCII whitespace. -/
def trimChars (l : List Char) : List Char :=
  ((l.dropWhile Char.isWhitespace).reverse.dropWhile Char.isWhitespace).reverse

/-- First success of an option valued function over a candidate list;
used to realise the backtracking order of a JS regex engine. -/
def firstSomeMap (f : α → Option β) : List α → Option β
  | [] => none
  | a :: as =>
    match f a with
    | some b => some b
    | none => firstSomeMap f as

/-- Ordered choice between two optional results, as regex alternation. -/
def oor (a b : Option α) : Option α :=
  match a with
  | some _ => a
  | none => b

/-- Leftmost match search: try the matcher at every start position from
the left, as a JS regex match over the whole string. -/
def scanFirst (f : List Char → Option α) : List Char → Option α
  | [] => f []
  | c :: cs =>
    match f (c :: cs) with
    | some r => some r
    | none => scanFirst f cs

/-! ## The four regexes of extractBillingData -/

/-- Character class of the group in the invoice regex, [a-z0-9-] under
the i flag. -/
def invTokenChar (c : Char) : Bool := c.isAlpha || c.isDigit || c = '-'

/-- Character class between the label and the token in the invoice
regex. -/
def invGapChar (c : Char) : Bool := c.isWhitespace || c = '#' || c = ':'

/-- One position attempt of the invoice number regex, pattern
(?:invoice|inv|bill)[\s#:]*([a-z0-9-]+) with the i flag; returns the
captured token.  Alternatives are tried in source order. -/
def matchInvoiceAt (s : List Char) : Option (List Char) :=
  firstSomeMap
    (fun lab =>
      match stripCI lab s with
      | none => none
      | some rest =>
        let rest1 := rest.dropWhile invGapChar
        let tok := rest1.takeWhile invTokenChar
        if tok.isEmpty then none else some tok)
    ["invoice".data, "inv".data, "bill".data]

/-- Date separator class, a slash or a hyphen. -/
def isSep (c : Char) : Bool := c = '/' || c = '-'

/-- Greedy candidate splits for a bounded digit group such as \d{1,2},
longest first, matching the backtracking order of the engine. -/
def dchunkCands (lo hi : Nat) (s : List Char) : List (List Char × List Char) :=
  let run := s.takeWhile Char.isDigit
  let n := min run.length hi
  (List.range (n + 1)).reverse.filterMap
    (fun k => if lo ≤ k then some (s.take k, s.drop k) else none)

/-- One position attempt of the first date alternative,
one or two digits, separator, one or two digits, separator, two to four
digits; returns the whole matched substring. -/
def matchDate1At (s : List Char) : Option (List Char) :=
  firstSomeMap
    (fun p1 =>
      match p1.2 with
      | c1 :: r1 =>
        if isSep c1 then
          firstSomeMap
            (fun p2 =>
              match p2.2 with
              | c2 :: r2 =>
                if isSep c2 then
                  let run := r2.takeWhile Char.isDigit
                  let k := min run.length 4
                  if 2 ≤ k then some (p1.1 ++ [c1] ++ p2.1 ++ [c2] ++ r2.take k)
                  else none
                else none
              | [] => none)
            (dchunkCands 1 2 r1)
        else none
      | [] => none)
    (dchunkCands 1 2 s)

/-- One position attempt of the second date alternative,
four digits, separator, one or two digits, separator, one or two digits;
returns the whole matched substring. -/
def matchDate2At (s : List Char) : Option (List Char) :=
  if (s.takeWhile Char.isDigit).length < 4 then none
  else
    let a := s.take 4
    match s.drop 4 with
    | c1 :: r1 =>
      if isSep c1 then
        firstSomeMap
          (fun p2 =>
            match p2.2 with
            | c2 :: r2 =>
              if isSep c2 then
                let run := r2.takeWhile Char.isDigit
                let k := min run.length 2
                if 1 ≤ k then some (a ++ [c1] ++ p2.1 ++ [c2] ++ r2.take k)
                else none
              else none
            | [] => none)
          (dchunkCands 1 2 r1)
      else none
    | [] => none

/-- One position attempt of the full date regex, first alternative then
second, as in the source pattern. -/
def matchDateAt (s : List Char) : Option (List Char) :=
  oor (matchDate1At s) (matchDate2At s)

/-- Character class between the label and the number in the amount
regex, [\s:$]. -/
def amtGapChar (c : Char) : Bool := c.isWhitespace || c = ':' || c = '$'

/-- One position attempt of the amount regex,
(?:total|amount|sum)[\s:$]*(\d+\.?\d*) with the i flag; returns the
captured number string. -/
def matchAmountAt (s : List Char) : Option (List Char) :=
  firstSomeMap
    (fun lab =>
      match stripCI lab s with
      | none => none
      | some rest =>
        let rest1 := rest.dropWhile amtGapChar
        let digs := rest1.takeWhile Char.isDigit
        if digs.isEmpty then none
        else
          match rest1.drop digs.length with
          | '.' :: rest3 => some (digs ++ ['.'] ++ rest3.takeWhile Char.isDigit)
          | _ => some digs)
    ["total".data, "amount".data, "sum".data]

/-! ## Line item extraction: the global items regex -/

/-- One line item as built by the extractor: description, parseInt
quantity, parseFloat unit price and total price. -/
structure BillingItem where
  description : String
  quantity : Nat
  unitPrice : ℚ
  totalPrice : ℚ
deriving DecidableEq

/-- Greedy candidate captures for a price group, digits, optional dot,
optional digits, in the backtracking order of the engine: the dotted
captures with shrinking fraction first, then the shrinking plain digit
prefixes. -/
def priceCands (s : List Char) : List (List Char × List Char) :=
  let r1 := s.takeWhile Char.isDigit
  if r1.isEmpty then []
  else
    let s1 := s.drop r1.length
    let dotted : List (List Char × List Char) :=
      match s1 with
      | '.' :: s2 =>
        let r2 := s2.takeWhile Char.isDigit
        (List.range (r2.length + 1)).reverse.map
          (fun j => (r1 ++ ['.'] ++ r2.take j, s2.drop j))
      | _ => []
    dotted ++ (List.range r1.length).reverse.map
      (fun i => (r1.take (i + 1), s.drop (i + 1)))

/-- Greedy maximal capture for the final price group, after which the
pattern ends so no backtracking is needed. -/
def priceMax (s : List Char) : Option (List Char × List Char) :=
  let r1 := s.takeWhile Char.isDigit
  if r1.isEmpty then none
  else
    match s.drop r1.length with
    | '.' :: s2 =>
      let r2 := s2.takeWhile Char.isDigit
      some (r1 ++ ['.'] ++ r2, s2.drop r2.length)
    | _ => some (r1, s.drop r1.length)

/-- The tail of the item pattern after the lazy description group:
whitespace, quantity digits, optional whitespace, optional x, optional
whitespace, optional dollar sign, price, again optional whitespace and
dollar sign, price.  Returns quantity, unit price and total price
captures and the rest of the text after the match. -/
def matchNumTail (s : List Char) :
    Option (List Char × List Char × List Char × List Char) :=
  let ws := s.takeWhile Char.isWhitespace
  if ws.isEmpty then none
  else
    let s1 := s.drop ws.length
    let run := s1.takeWhile Char.isDigit
    if run.isEmpty then none
    else
      firstSomeMap
        (fun k =>
          let q := s1.take k
          let s2 := s1.drop k
          let s3 := s2.dropWhile Char.isWhitespace
          let s4 := match s3 with | 'x' :: t => t | _ => s3
          let s5 := s4.dropWhile Char.isWhitespace
          let s6 := match s5 with | '$' :: t => t | _ => s5
          firstSomeMap
            (fun p3 =>
              let s8 := p3.2.dropWhile Char.isWhitespace
              let s9 := match s8 with | '$' :: t => t | _ => s8
              match priceMax s9 with
              | some (g4, s10) => some (q, p3.1, g4, s10)
              | none => none)
            (priceCands s6))
        ((List.range run.length).reverse.map (fun i => i + 1))

/-- One position attempt of the items regex: the description group is
lazy and may not cross a newline, so it is grown one character at a
time, retrying the numeric tail after each character. -/
def matchItemGo (descRev : List Char) : List Char → Option (BillingItem × List Char)
  | [] => none
  | c :: cs =>
    if c = '\n' then none
    else
      match matchNumTail cs with
      | some (q, g3, g4, rest) =>
        some ({ description := (trimChars (c :: descRev).reverse).asString
                quantity := natOfDigits q
                unitPrice := parseDecimal g3
                totalPrice := parseDecimal g4 }, rest)
      | none => matchItemGo (c :: descRev) cs

/-- One position attempt of the items regex. -/
def matchItemAt (s : List Char) : Option (BillingItem × List Char) :=
  matchItemGo [] s

/-- The global exec loop over the items regex: repeatedly take the
leftmost match and continue after its end.  Every match consumes at
least three characters, so fuel equal to the text length suffices. -/
def scanItems : Nat → List Char → List BillingItem
  | 0, _ => []
  | _ + 1, [] => []
  | fuel + 1, c :: cs =>
    match matchItemAt (c :: cs) with
    | some (it, rest) => it :: scanItems fuel rest
    | none => scanItems fuel cs

/-! ## Vendor lines and the extractor -/

/-- The lines array of the extractor: split on newline, trim each line,
keep the nonempty ones. -/
def linesOf (text : String) : List String :=
  ((splitNl text.data).map (fun l => (trimChars l).asString)).filter
    (fun s => !(s == ""))

/-- The meaningful line filter of the extractor: length above three, not
matched by the all digits regex, not matched by the regex of slashes,
hyphens and whitespace only. -/
def meaningfulLine (s : String) : Bool :=
  decide (s.length > 3)
    && !(!s.data.isEmpty && s.data.all Char.isDigit)
    && !(!s.data.isEmpty
          && s.data.all (fun c => c = '/' || c = '-' || c.isWhitespace))

/-- The meaningful lines of the text, in order. -/
def meaningfulLines (text : String) : List String :=
  (linesOf text).filter meaningfulLine

/-- Result object of extractBillingData. -/
structure BillingData where
  invoiceNumber : String
  vendor : String
  date : String
  totalAmount : ℚ
  currency : String
  items : List BillingItem
  rawText : String
  confidence : ℚ
deriving DecidableEq

/-- The field extractor extractBillingData of the server: each field is
the result of the corresponding regex search over the raw text, with the
initial object values when nothing matches. -/
def extractBillingData (text : String) : BillingData :=
  { invoiceNumber :=
      match scanFirst matchInvoiceAt text.data with
      | some tok => tok.asString
      | none => ""
    vendor := (meaningfulLines text).headD ""
    date :=
      match scanFirst matchDateAt text.data with
      | some m => m.asString
      | none => ""
    totalAmount :=
      match scanFirst matchAmountAt text.data with
      | some cap => parseDecimal cap
      | none => 0
    currency := "USD"
    items := scanItems (text.data.length + 1) text.data
    rawText := text
    confidence := (8 : ℚ) / 10 }

/-! ## The record store and its mutation paths -/

/-- A stored billing record as created and mutated by the server.
Nullable JS fields are options; currency is created as the string USD
directly. -/
structure BillingRecord where
  id : String
  originalFilename : String
  imagePath : String
  status : String
  uploadedAt : String
  extractedAt : Option String
  rawText : Option String
  invoiceNumber : Option String
  vendor : Option String
  date : Option String
  totalAmount : Option ℚ
  currency : String
  items : List BillingItem
  confidence : ℚ
  updatedAt : Option String
deriving DecidableEq

/-- The initial record pushed by the upload handler. -/
def createRecord (id originalFilename imagePath uploadedAt : String) :
    BillingRecord :=
  { id := id
    originalFilename := originalFilename
    imagePath := imagePath
    status := "processing"
    uploadedAt := uploadedAt
    extractedAt := none
    rawText := none
    invoiceNumber := none
    vendor := none
    date := none
    totalAmount := none
    currency := "USD"
    items := []
    confidence := 0
    updatedAt := none }

/-- The record after the success path of the pipeline: spread of the
extracted data over the record, then status completed, extractedAt now
and the raw text. -/
def completeRecord (r : BillingRecord) (bd : BillingData) (now : String) :
    BillingRecord :=
  { r with
    invoiceNumber := some bd.invoiceNumber
    vendor := some bd.vendor
    date := some bd.date
    totalAmount := some bd.totalAmount
    currency := bd.currency
    items := bd.items
    confidence := bd.confidence
    rawText := some bd.rawText
    status := "completed"
    extractedAt := some now }

/-- The record after the catch branch of the pipeline: only status and
extractedAt are assigned. -/
def errorRecord (r : BillingRecord) (now : String) : BillingRecord :=
  { r with status := "error", extractedAt := some now }

/-- A parsed JSON body of the PUT update endpoint.  The outer option is
presence of the key in the body, the inner option of a nullable field is
its value.  The merge in the handler copies every present key over the
stored record. -/
structure UpdateBody where
  id : Option String := none
  originalFilename : Option String := none
  imagePath : Option String := none
  status : Option String := none
  uploadedAt : Option String := none
  extractedAt : Option (Option String) := none
  rawText : Option (Option String) := none
  invoiceNumber : Option (Option String) := none
  vendor : Option (Option String) := none
  date : Option (Option String) := none
  totalAmount : Option (Option ℚ) := none
  currency : Option String := none
  items : Option (List BillingItem) := none
  confidence : Option ℚ := none
deriving DecidableEq

/-- The PUT update handler merge: spread of the stored record, then of
the body, then updatedAt set to the current time. -/
def applyUpdate (r : BillingRecord) (b : UpdateBody) (now : String) :
    BillingRecord :=
  { id := b.id.getD r.id
    originalFilename := b.originalFilename.getD r.originalFilename
    imagePath := b.imagePath.getD r.imagePath
    status := b.status.getD r.status
    uploadedAt := b.uploadedAt.getD r.uploadedAt
    extractedAt := b.extractedAt.getD r.extractedAt
    rawText := b.rawText.getD r.rawText
    invoiceNumber := b.invoiceNumber.getD r.invoiceNumber
    vendor := b.vendor.getD r.vendor
    date := b.date.getD r.date
    totalAmount := b.totalAmount.getD r.totalAmount
    currency := b.currency.getD r.currency
    items := b.items.getD r.items
    confidence := b.confidence.getD r.confidence
    updatedAt := some now }

/-- Replace the first record with the given id, as findIndex followed by
assignment on the billingRecords array; identity when the id is
absent. -/
def updateById (rid : String) (f : BillingRecord → BillingRecord) :
    List BillingRecord → List BillingRecord
  | [] => []
  | r :: rs => if r.id = rid then f r :: rs else r :: updateById rid f rs

/-- Append of the freshly created record by the upload handler. -/
def uploadCreate (id originalFilename imagePath uploadedAt : String)
    (s : List BillingRecord) : List BillingRecord :=
  s ++ [createRecord id originalFilename imagePath uploadedAt]

/-! ## The pipeline run and the file system -/

/-- Node path.extname on a posix path. -/
def extnameOf (p : String) : String :=
  let base := (p.data.reverse.takeWhile (fun c => c ≠ '/')).reverse
  let rev := base.reverse
  let afterDotRev := rev.takeWhile (fun c => c ≠ '.')
  if afterDotRev.length = rev.length then ""
  else if afterDotRev.length + 1 = rev.length then ""
  else ('.' :: afterDotRev.reverse).asString

/-- JS String.prototype.replace with a string pattern: replace the first
occurrence only; an empty pattern matches at position zero. -/
def replFirstGo (pat repl : List Char) : List Char → List Char
  | [] => if pat.isEmpty then repl else []
  | c :: cs =>
    if pat.isPrefixOf (c :: cs) then repl ++ (c :: cs).drop pat.length
    else c :: replFirstGo pat repl cs

/-- The intermediate output path computed by preprocessImage: the
extension of the image path replaced by the processed png suffix. -/
def processedPathOf (p : String) : String :=
  (replFirstGo (extnameOf p).data "_processed.png".data p.data).asString

/-- The mutable server state the pipeline touches: the billingRecords
array and the set of files existing on disk. -/
structure ServerState where
  records : List BillingRecord
  files : List String

/-- Deletion of a file when it exists, as existsSync plus removeSync. -/
def removeFile (p : String) (files : List String) : List String :=
  files.filter (fun q => !(q == p))

/-- One run of processImageAsync for a record id and image path.  The
outcome of the image library is the boolean preOk (a failing transform
creates no output file); the outcome of the OCR engine is an optional
pair of recognized text and raw percent confidence.  On preprocessing
success the intermediate file is created; on full success the record is
completed and the intermediate file removed; on any failure the catch
branch only marks the record as error, leaving the intermediate file
in place.  The run is a single pass: it ends in a terminal record state
and is never retried. -/
def processImageAsync (rid imagePath now : String) (preOk : Bool)
    (ocr : Option (String × ℚ)) (st : ServerState) : ServerState :=
  let processedPath := processedPathOf imagePath
  if preOk then
    let st1 : ServerState := { st with files := st.files ++ [processedPath] }
    match ocr with
    | some tc =>
      let bd := { extractBillingData tc.1 with confidence := tc.2 / 100 }
      let st2 : ServerState :=
        { st1 with records := updateById rid (fun r => completeRecord r bd now) st1.records }
      { st2 with files := removeFile processedPath st2.files }
    | none =>
      { st1 with records := updateById rid (fun r => errorRecord r now) st1.records }
  else
    { st with records := updateById rid (fun r => errorRecord r now) st.records }

/-! ## Reachability through the public record operations -/

/-- One mutation of the stored record list through a public operation:
creation on upload, pipeline success, pipeline failure, or a PUT merge
update whose body satisfies P. -/
inductive StoreStep (P : UpdateBody → Prop) :
    List BillingRecord → List BillingRecord → Prop where
  | upload (s : List BillingRecord) (id fn ip t : String) :
      StoreStep P s (uploadCreate id fn ip t s)
  | complete (s : List BillingRecord) (rid : String) (bd : BillingData) (t : String) :
      StoreStep P s (updateById rid (fun r => completeRecord r bd t) s)
  | pipelineError (s : List BillingRecord) (rid t : String) :
      StoreStep P s (updateById rid (fun r => errorRecord r t) s)
  | put (s : List BillingRecord) (rid : String) (b : UpdateBody) (t : String)
      (hb : P b) :
      StoreStep P s (updateById rid (fun r => applyUpdate r b t) s)

/-- Any body is accepted by the code as it stands. -/
def anyBody (_ : UpdateBody) : Prop := True

/-- Bodies that do not carry the status or extractedAt keys. -/
def safeBody (b : UpdateBody) : Prop := b.status = none ∧ b.extractedAt = none

/-- Record lists reachable from the empty store through the public
operations with PUT bodies restricted by P. -/
def Reachable (P : UpdateBody → Prop) (s : List BillingRecord) : Prop :=
  Relation.ReflTransGen (StoreStep P) [] s

/-! ## The Excel export generator -/

/-- JS truthiness default on a string, the or default idiom. -/
def jsOrStr (s d : String) : String := if s = "" then d else s

/-- JS truthiness default on a nullable string. -/
def jsOrS (o : Option String) (d : String) : String :=
  match o with
  | none => d
  | some s => if s = "" then d else s

/-- JS truthiness default on a nullable number. -/
def jsOrQ (o : Option ℚ) (d : ℚ) : ℚ :=
  match o with
  | none => d
  | some x => if x = 0 then d else x

/-- One row of the summary sheet.  The processed date column is the
locale formatting of extractedAt, supplied as the environment function
fmt. -/
structure SummaryRow where
  invoiceNumber : String
  vendor : String
  date : String
  totalAmount : ℚ
  currency : String
  status : String
  processedDate : String
deriving DecidableEq

/-- One row of the line items sheet. -/
structure DetailRow where
  invoiceNumber : String
  vendor : String
  itemDescription : String
  quantity : Nat
  unitPrice : ℚ
  totalPrice : ℚ
  invoiceDate : String
deriving DecidableEq

/-- The summary sheet row of a record. -/
def summaryRow (fmt : Option String → String) (r : BillingRecord) : SummaryRow :=
  { invoiceNumber := jsOrS r.invoiceNumber "N/A"
    vendor := jsOrS r.vendor "N/A"
    date := jsOrS r.date "N/A"
    totalAmount := jsOrQ r.totalAmount 0
    currency := jsOrStr r.currency "USD"
    status := jsOrStr r.status "completed"
    processedDate := fmt r.extractedAt }

/-- The line items sheet rows contributed by one record: one row per
item, or the single sentinel row when the items array is empty. -/
def rowsFor (r : BillingRecord) : List DetailRow :=
  match r.items with
  | [] =>
    [{ invoiceNumber := jsOrS r.invoiceNumber "N/A"
       vendor := jsOrS r.vendor "N/A"
       itemDescription := "No items extracted"
       quantity := 0
       unitPrice := 0
       totalPrice := jsOrQ r.totalAmount 0
       invoiceDate := jsOrS r.date "N/A" }]
  | items =>
    items.map (fun it =>
      { invoiceNumber := jsOrS r.invoiceNumber "N/A"
        vendor := jsOrS r.vendor "N/A"
        itemDescription := jsOrStr it.description "N/A"
        quantity := it.quantity
        unitPrice := it.unitPrice
        totalPrice := it.totalPrice
        invoiceDate := jsOrS r.date "N/A" })

/-- The workbook content of generateExcelFile: the summary sheet and the
line items sheet built from the given records. -/
def generateExcelFile (fmt : Option String → String)
    (records : List BillingRecord) : List SummaryRow × List DetailRow :=
  (records.map (summaryRow fmt), records.flatMap rowsFor)

/-- The export endpoint: filter the completed records; reject with a 400
client error when there are none, otherwise build the workbook. -/
def exportHandler (fmt : Option String → String)
    (records : List BillingRecord) :
    Except (Nat × String) (List SummaryRow × List DetailRow) :=
  let completed := records.filter (fun r => r.status == "completed")
  if completed.length = 0 then
    Except.error (400, "No completed records to export")
  else
    Except.ok (generateExcelFile fmt completed)

/-! ## Spec side definitions for the vendor claim -/

/-- Modelled from the claim wording: a line is trivial when it is short,
purely numeric, or purely punctuation or whitespace; punctuation is read
as any character that is not alphanumeric. -/
def claimNonTrivialOrig (s : String) : Bool :=
  decide (s.length > 3)
    && !(!s.data.isEmpty && s.data.all Char.isDigit)
    && !(!s.data.isEmpty && s.data.all (fun c => !c.isAlphanum))

/-- The vendor the original claim wording prescribes: the first
non trivial line in the claim sense, empty when there is none. -/
def claimVendorOrig (text : String) : String :=
  ((linesOf text).find? claimNonTrivialOrig).getD ""

/-- The vendor the amended claim prescribes: the first line that the
meaningful line predicate of the code accepts, empty when there is
none. -/
def claimVendorAmended (text : String) : String :=
  ((linesOf text).find? meaningfulLine).getD ""

/-- A PUT body carrying only a status key, as sent by a client that
overwrites the state machine through the merge. -/
def statusOnlyBody : UpdateBody := { status := some "completed" }

/-- The record created by a first upload in the counterexample runs. -/
def c1Rec0 : BillingRecord := createRecord "id-1" "a.png" "uploads/a.png" "t0"

/-- The record after the merge of a status only body. -/
def c1Rec1 : BillingRecord := applyUpdate c1Rec0 statusOnlyBody "t1"

/-- A completed record with an empty items list, for the export
claims. -/
def c7Rec : BillingRecord :=
  { createRecord "w7" "f.png" "p.png" "t0" with
      status := "completed", totalAmount := some 5, extractedAt := some "t1" }

/-! ## Helper lemmas -/

/-- Membership after an update by id comes from an untouched record or
from the updated image of a stored record. -/
theorem mem_updateById {rid : String} {f : BillingRecord → BillingRecord}
    {l : List BillingRecord} {r : BillingRecord}
    (hr : r ∈ updateById rid f l) : r ∈ l ∨ ∃ r₀ ∈ l, r = f r₀ := by
  induction l with
  | nil => simp [updateById] at hr
  | cons a as ih =>
    rw [updateById] at hr
    by_cases ha : a.id = rid
    · rw [if_pos ha] at hr
      rcases List.mem_cons.mp hr with h | h
      · exact Or.inr ⟨a, List.mem_cons_self a as, h⟩
      · exact Or.inl (List.mem_cons_of_mem a h)
    · rw [if_neg ha] at hr
      rcases List.mem_cons.mp hr with h | h
      · exact Or.inl (h ▸ List.mem_cons_self a as)
      · rcases ih h with h1 | ⟨r₀, h₀, he⟩
        · exact Or.inl (List.mem_cons_of_mem a h1)
        · exact Or.inr ⟨r₀, List.mem_cons_of_mem a h₀, he⟩

/-- The head of a filtered list with a default is the first element
satisfying the predicate. -/
theorem headD_filter_eq_find (p : α → Bool) (d : α) (l : List α) :
    (l.filter p).headD d = (l.find? p).getD d := by
  induction l with
  | nil => rfl
  | cons a as ih =>
    cases h : p a
    · simp [List.filter_cons, List.find?_cons, h, ih]
    · simp [List.filter_cons, List.find?_cons, h]

/-! ## Claim theorems -/

/-- C1 counterexample: a record reachable through the public operations
(an upload followed by a PUT whose body carries a status key) has a
status different from processing while extractedAt is still null, so the
claimed equivalence fails on the code as written. -/
theorem c1_counterexample :
    Reachable anyBody [c1Rec1]
    ∧ c1Rec1.status ≠ "processing"
    ∧ c1Rec1.extractedAt = none := by
  refine ⟨?_, by decide, by decide⟩
  have h1 : StoreStep anyBody [] [c1Rec0] :=
    StoreStep.upload [] "id-1" "a.png" "uploads/a.png" "t0"
  have h2 : StoreStep anyBody [c1Rec0] [c1Rec1] := by
    have h := StoreStep.put (P := anyBody) [c1Rec0] "id-1" statusOnlyBody "t1" trivial
    have e : updateById "id-1" (fun r => applyUpdate r statusOnlyBody "t1") [c1Rec0]
        = [c1Rec1] := by decide
    rw [e] at h
    exact h
  exact Relation.ReflTransGen.tail (Relation.ReflTransGen.single h1) h2

/-- C1 amended: for every record reachable through creation on upload,
pipeline success, pipeline failure and PUT updates whose bodies do not
carry the status or extractedAt keys, extractedAt is set if and only if
the status is not processing. -/
theorem c1_amended (s : List BillingRecord) (h : Reachable safeBody s) :
    ∀ r ∈ s, (r.extractedAt ≠ none ↔ r.status ≠ "processing") := by
  induction h with
  | refl => intro r hr; exact absurd hr (List.not_mem_nil r)
  | tail _ hstep ih =>
    cases hstep with
    | upload id fn ip t =>
      intro r hr
      simp only [uploadCreate] at hr
      rcases List.mem_append.mp hr with h1 | h2
      · exact ih r h1
      · have hre : r = createRecord id fn ip t := List.mem_singleton.mp h2
        subst hre
        simp [createRecord]
    | complete rid bd t =>
      intro r hr
      rcases mem_updateById hr with h1 | ⟨r₀, _, he⟩
      · exact ih r h1
      · subst he
        simp [completeRecord]
    | pipelineError rid t =>
      intro r hr
      rcases mem_updateById hr with h1 | ⟨r₀, _, he⟩
      · exact ih r h1
      · subst he
        simp [errorRecord]
    | put rid b t hb =>
      intro r hr
      rcases mem_updateById hr with h1 | ⟨r₀, h₀, he⟩
      · exact ih r h1
      · subst he
        have hr₀ := ih r₀ h₀
        simpa [applyUpdate, hb.1, hb.2] using hr₀

/-- C1 witness: a store holding one freshly uploaded record is reachable
with safe bodies and the invariant holds on that record. -/
theorem c1_witness :
    (createRecord "w" "f.png" "p.png" "t0").extractedAt ≠ none
      ↔ (createRecord "w" "f.png" "p.png" "t0").status ≠ "processing" := by
  have h : Reachable safeBody [createRecord "w" "f.png" "p.png" "t0"] :=
    Relation.ReflTransGen.single (StoreStep.upload [] "w" "f.png" "p.png" "t0")
  exact c1_amended _ h _ (List.mem_singleton.mpr rfl)

/-- C2 counterexample: the PUT merge copies a status key from the body,
so there is a request body for which the update changes the stored
status, refuting the claim that status is unchanged for every body. -/
theorem c2_counterexample :
    (applyUpdate (createRecord "id-2" "b.png" "uploads/b.png" "t0")
        statusOnlyBody "t1").status
      ≠ (createRecord "id-2" "b.png" "uploads/b.png" "t0").status := by
  decide

/-- C2 amended: the PUT merge leaves id and status unchanged provided
the request body does not carry those keys; any key present in the body
overwrites the stored field. -/
theorem c2_amended (r : BillingRecord) (b : UpdateBody) (t : String)
    (hid : b.id = none) (hst : b.status = none) :
    (applyUpdate r b t).id = r.id ∧ (applyUpdate r b t).status = r.status := by
  simp [applyUpdate, hid, hst]

/-- C2 witness: a body touching only the vendor field leaves id and
status of a stored record unchanged. -/
theorem c2_witness :
    (applyUpdate (createRecord "id-2" "b.png" "uploads/b.png" "t0")
        { vendor := some (some "Acme") } "t1").id
      = (createRecord "id-2" "b.png" "uploads/b.png" "t0").id
    ∧ (applyUpdate (createRecord "id-2" "b.png" "uploads/b.png" "t0")
        { vendor := some (some "Acme") } "t1").status
      = (createRecord "id-2" "b.png" "uploads/b.png" "t0").status :=
  c2_amended _ _ "t1" rfl rfl

/-- C3: on a synthetic text holding the invoice line, the date and the
total line, the extractor returns the stated invoice number, date and
total amount. -/
theorem c3_roundTrip :
    (extractBillingData
        "Invoice #INV-2024-099\n2024-03-01\nTotal: $123.45").invoiceNumber
      = "INV-2024-099"
    ∧ (extractBillingData
        "Invoice #INV-2024-099\n2024-03-01\nTotal: $123.45").date
      = "2024-03-01"
    ∧ (extractBillingData
        "Invoice #INV-2024-099\n2024-03-01\nTotal: $123.45").totalAmount
      = (123.45 : ℚ) := by
  refine ⟨by decide, by decide, ?_⟩
  have h : (extractBillingData
      "Invoice #INV-2024-099\n2024-03-01\nTotal: $123.45").totalAmount
      = mkRat 12345 100 := by decide
  rw [h, Rat.mkRat_eq_div]
  norm_num

/-- C4 counterexample: on a text with no amount label the extractor
returns a total amount equal to zero, the same value it returns when an
explicit zero total is present, so an absent total is not an empty field
distinct from zero as the claim states. -/
theorem c4_counterexample :
    scanFirst matchAmountAt "hello".data = none
    ∧ (extractBillingData "hello").totalAmount = 0
    ∧ (extractBillingData "total 0").totalAmount = 0 := by
  refine ⟨?_, ?_, ?_⟩ <;> decide

/-- C4 amended: when no amount label followed by a decimal number
occurs, the extractor leaves the total amount at its numeric default
zero, which is not distinguishable from an extracted zero. -/
theorem c4_amended (text : String)
    (h : scanFirst matchAmountAt text.data = none) :
    (extractBillingData text).totalAmount = 0 := by
  have hdef : (extractBillingData text).totalAmount
      = match scanFirst matchAmountAt text.data with
        | some cap => parseDecimal cap
        | none => 0 := rfl
  rw [hdef, h]

/-- C4 witness: a concrete text without any amount label. -/
theorem c4_witness :
    scanFirst matchAmountAt "zzz".data = none
    ∧ (extractBillingData "zzz").totalAmount = 0 :=
  ⟨by decide, c4_amended "zzz" (by decide)⟩

/-- C5 counterexample: a run in which preprocessing succeeds and OCR
fails reaches the terminal error status with the intermediate processed
file still existing, refuting removal on every terminal outcome. -/
theorem c5_counterexample :
    (processImageAsync "id-1" "a.png" "t1" true none
        ⟨[createRecord "id-1" "a.png" "a.png" "t0"], []⟩).files
      = ["a_processed.png"]
    ∧ (processImageAsync "id-1" "a.png" "t1" true none
        ⟨[createRecord "id-1" "a.png" "a.png" "t0"], []⟩).records
      = [errorRecord (createRecord "id-1" "a.png" "a.png" "t0") "t1"]
    ∧ (errorRecord (createRecord "id-1" "a.png" "a.png" "t0") "t1").status
      = "error"
    ∧ processedPathOf "a.png" = "a_processed.png" := by
  refine ⟨?_, ?_, ?_, ?_⟩ <;> decide

/-- C5 amended: the intermediate preprocessed file is removed when the
run succeeds, but a run whose OCR stage fails after preprocessing ends
with the intermediate file still existing. -/
theorem c5_amended (rid ip now text : String) (conf : ℚ) (st : ServerState) :
    processedPathOf ip ∉
      (processImageAsync rid ip now true (some (text, conf)) st).files
    ∧ processedPathOf ip ∈
      (processImageAsync rid ip now true none st).files := by
  constructor
  · simp [processImageAsync, removeFile, List.mem_filter]
  · simp [processImageAsync]

/-- C6: when a pipeline stage fails for a freshly created record, the
run marks exactly that record with status error and extractedAt now,
leaving every extracted field at its creation default; the run is a
single pass with no retry. -/
theorem c6_pipelineFailure (id fn ip up now : String) (files : List String)
    (preOk : Bool) (ocr : Option (String × ℚ))
    (hfail : preOk = false ∨ ocr = none) :
    (processImageAsync id ip now preOk ocr
        ⟨[createRecord id fn ip up], files⟩).records
      = [errorRecord (createRecord id fn ip up) now]
    ∧ (errorRecord (createRecord id fn ip up) now).status = "error"
    ∧ (errorRecord (createRecord id fn ip up) now).extractedAt = some now
    ∧ (errorRecord (createRecord id fn ip up) now).invoiceNumber = none
    ∧ (errorRecord (createRecord id fn ip up) now).vendor = none
    ∧ (errorRecord (createRecord id fn ip up) now).date = none
    ∧ (errorRecord (createRecord id fn ip up) now).totalAmount = none
    ∧ (errorRecord (createRecord id fn ip up) now).currency = "USD"
    ∧ (errorRecord (createRecord id fn ip up) now).items = []
    ∧ (errorRecord (createRecord id fn ip up) now).confidence = 0
    ∧ (errorRecord (createRecord id fn ip up) now).rawText = none := by
  refine ⟨?_, rfl, rfl, rfl, rfl, rfl, rfl, rfl, rfl, rfl, rfl⟩
  rcases hfail with h | h
  · subst h
    simp [processImageAsync, updateById, createRecord, errorRecord]
  · subst h
    cases preOk <;>
      simp [processImageAsync, updateById, createRecord, errorRecord]

/-- C6 witness: a concrete failing run on a fresh record. -/
theorem c6_witness :
    (processImageAsync "id-6" "up/c.png" "t1" false none
        ⟨[createRecord "id-6" "c.png" "up/c.png" "t0"], []⟩).records
      = [errorRecord (createRecord "id-6" "c.png" "up/c.png" "t0") "t1"]
    ∧ (errorRecord (createRecord "id-6" "c.png" "up/c.png" "t0") "t1").status
      = "error"
    ∧ (errorRecord (createRecord "id-6" "c.png" "up/c.png" "t0") "t1").extractedAt
      = some "t1"
    ∧ (errorRecord (createRecord "id-6" "c.png" "up/c.png" "t0") "t1").invoiceNumber
      = none
    ∧ (errorRecord (createRecord "id-6" "c.png" "up/c.png" "t0") "t1").vendor
      = none
    ∧ (errorRecord (createRecord "id-6" "c.png" "up/c.png" "t0") "t1").date
      = none
    ∧ (errorRecord (createRecord "id-6" "c.png" "up/c.png" "t0") "t1").totalAmount
      = none
    ∧ (errorRecord (createRecord "id-6" "c.png" "up/c.png" "t0") "t1").currency
      = "USD"
    ∧ (errorRecord (createRecord "id-6" "c.png" "up/c.png" "t0") "t1").items
      = []
    ∧ (errorRecord (createRecord "id-6" "c.png" "up/c.png" "t0") "t1").confidence
      = 0
    ∧ (errorRecord (createRecord "id-6" "c.png" "up/c.png" "t0") "t1").rawText
      = none :=
  c6_pipelineFailure "id-6" "c.png" "up/c.png" "t0" "t1" [] false none
    (Or.inl rfl)

/-- C7: in the line items sheet a record with an empty items list
contributes exactly one row, whose description is the sentinel, whose
total price column carries the record total amount and whose quantity
and unit price are zero; the sheet is the concatenation of the rows of
every exported record and no record contributes zero rows. -/
theorem c7_lineItemsSheet (fmt : Option String → String)
    (records : List BillingRecord) (r : BillingRecord) (a : ℚ)
    (hitems : r.items = []) (hta : r.totalAmount = some a) :
    rowsFor r =
      [{ invoiceNumber := jsOrS r.invoiceNumber "N/A"
         vendor := jsOrS r.vendor "N/A"
         itemDescription := "No items extracted"
         quantity := 0
         unitPrice := 0
         totalPrice := a
         invoiceDate := jsOrS r.date "N/A" }]
    ∧ (generateExcelFile fmt records).2 = records.flatMap rowsFor
    ∧ (∀ r2 : BillingRecord, rowsFor r2 ≠ []) := by
  refine ⟨?_, rfl, ?_⟩
  · simp only [rowsFor, hitems, jsOrQ, hta]
    rcases eq_or_ne a 0 with h0 | h0
    · subst h0
      simp
    · simp [h0]
  · intro r2
    cases h : r2.items with
    | nil => simp [rowsFor, h]
    | cons x xs => simp [rowsFor, h]

/-- C7 witness: a concrete completed record with no items yields the
single sentinel row carrying its total amount. -/
theorem c7_witness :
    rowsFor c7Rec =
      [{ invoiceNumber := jsOrS c7Rec.invoiceNumber "N/A"
         vendor := jsOrS c7Rec.vendor "N/A"
         itemDescription := "No items extracted"
         quantity := 0
         unitPrice := 0
         totalPrice := 5
         invoiceDate := jsOrS c7Rec.date "N/A" }]
    ∧ (generateExcelFile (fun _ => "d") [c7Rec]).2 = [c7Rec].flatMap rowsFor
    ∧ (∀ r2 : BillingRecord, rowsFor r2 ≠ []) :=
  c7_lineItemsSheet (fun _ => "d") [c7Rec] c7Rec 5 rfl rfl

/-- C8: when no stored record has status completed, the export endpoint
answers the 400 client error naming nothing to export and never returns
a workbook. -/
theorem c8_nothingToExport (fmt : Option String → String)
    (records : List BillingRecord)
    (h : records.filter (fun r => r.status == "completed") = []) :
    exportHandler fmt records
      = Except.error (400, "No completed records to export")
    ∧ ∀ wb, exportHandler fmt records ≠ Except.ok wb := by
  have hlen : (records.filter (fun r => r.status == "completed")).length = 0 := by
    rw [h]
    rfl
  constructor
  · simp [exportHandler, hlen]
  · intro wb
    simp [exportHandler, hlen]

/-- C8 witness: the empty store is rejected. -/
theorem c8_witness :
    exportHandler (fun _ => "d") []
      = Except.error (400, "No completed records to export")
    ∧ ∀ wb, exportHandler (fun _ => "d") ([] : List BillingRecord)
        ≠ Except.ok wb :=
  c8_nothingToExport (fun _ => "d") [] rfl

/-- C9 counterexample: on a text whose first line is four exclamation
marks the extractor takes that line as the vendor, while the claim
wording, which excludes purely punctuation lines, prescribes the second
line; the code regex only excludes slashes, hyphens and whitespace. -/
theorem c9_counterexample :
    (extractBillingData "!!!!\nAcme Corp").vendor = "!!!!"
    ∧ claimVendorOrig "!!!!\nAcme Corp" = "Acme Corp"
    ∧ ("!!!!" : String) ≠ "Acme Corp" := by
  refine ⟨?_, ?_, ?_⟩ <;> decide

/-- C9 amended: for every text the vendor is the first trimmed nonempty
line of length above three that is not purely numeric and not purely
made of slashes, hyphens and whitespace, or empty when there is no such
line. -/
theorem c9_amended (text : String) :
    (extractBillingData text).vendor = claimVendorAmended text := by
  show (meaningfulLines text).headD "" = claimVendorAmended text
  rw [meaningfulLines, claimVendorAmended]
  exact headD_filter_eq_find meaningfulLine "" (linesOf text)

/-- C10: the extractor returns the constant USD currency on every input,
including texts naming another currency. -/
theorem c10_currencyConstant :
    (∀ text : String, (extractBillingData text).currency = "USD")
    ∧ (extractBillingData "Invoice 7\nTotal: 99.50 EUR").currency = "USD" :=
  ⟨fun _ => rfl, rfl⟩

end BillScan
